import Mathlib

/-!
Verification of the RAW-to-JPEG batch conversion engine.

This file gives a shallow embedding, in Lean 4, of the parts of the
repository relevant to the stated claims:

* `camera_detector.py` — brand/model normalization (`CameraDetector`),
  embedded as executable string functions over `List Char`;
* `icm_manager.py` — the bounded profile cache (`ICMManager.load_icc_profile`),
  embedded as a pure function over an insertion-ordered association list;
* `enhanced_converter.py` — output-path computation, input scanning, the
  per-file conversion state machine (`convert_single_file`), parallel batch
  collection (`convert_batch`) and metrics folding (`ConversionMetrics`).

External collaborators (rawpy decode, imageio encode, PIL ImageCms, the
filesystem) are modelled as oracles carried in an environment record, which
is the standard shallow embedding of fallible I/O: a Python call that can
raise is a field of type `Except String _` or `Option _`, and a Python
exception handler is a `match` on that value.

Paths handed to the engine are modelled as lists of path components
(`PyPath`), mirroring the component-wise behaviour of `os.path.relpath`,
`os.path.dirname` and `os.path.join`; file NAMES inside a component are
ordinary strings, and `os.path.splitext` / `pathlib.Path.suffix` are
embedded character by character from their CPython definitions.
-/

/-! ## Character and string utilities (Python string semantics) -/

/-- Python `\s` (ASCII core): space, tab, newline, carriage return,
vertical tab, form feed. -/
def isWsChar (c : Char) : Bool :=
  c = ' ' || c = '\t' || c = '\n' || c = '\r' || c = Char.ofNat 11 || c = Char.ofNat 12

/-- Python `\w`: ASCII alphanumerics and underscore; non-ASCII characters
(such as `α`) are treated as word characters, approximating Unicode mode. -/
def isWordChar (c : Char) : Bool :=
  c.isAlphanum || c = '_' || c.val ≥ 128

/-- Python `str.strip()` on the character list. -/
def pyStrip (s : List Char) : List Char :=
  ((s.dropWhile isWsChar).reverse.dropWhile isWsChar).reverse

/-- `str.strip()` packaged for `String`. -/
def pyStripStr (s : String) : String :=
  (pyStrip s.toList).asString

/-- Lower-case a character list (Python `str.lower()`, ASCII). -/
def charsLower (s : List Char) : List Char :=
  s.map Char.toLower

/-- Case-insensitive literal match at the head of `s`: returns the rest of
`s` after the matched word, or `none`. -/
def dropHeadCI : List Char → List Char → Option (List Char)
  | [], s => some s
  | _, [] => none
  | a :: w, b :: s => if a.toLower = b.toLower then dropHeadCI w s else none

/-- Python `needle in hay` for strings (substring containment). -/
def containsSub (needle hay : List Char) : Bool :=
  match hay with
  | [] => needle.isEmpty
  | _ :: t => needle.isPrefixOf hay || containsSub needle t

/-! ## `camera_detector.py` — `CameraDetector` -/

/-- `CameraDetector.brand_mapping`, in Python dict insertion order. -/
def brand_mapping : List (String × String) :=
  [("Canon", "Canon"),
   ("NIKON", "Nikon"),
   ("NIKON CORPORATION", "Nikon"),
   ("Sony", "Sony"),
   ("SONY", "Sony"),
   ("Fujifilm", "Fujifilm"),
   ("FUJIFILM", "Fujifilm"),
   ("Olympus", "Olympus"),
   ("OLYMPUS IMAGING CORP.", "Olympus"),
   ("Panasonic", "Panasonic"),
   ("Panasonic Corporation", "Panasonic"),
   ("LEICA", "Leica"),
   ("Leica", "Leica"),
   ("Leica Camera AG", "Leica"),
   ("Pentax", "Pentax"),
   ("PENTAX", "Pentax"),
   ("RICOH IMAGING COMPANY, LTD.", "Pentax"),
   ("Samsung", "Samsung"),
   ("SAMSUNG", "Samsung"),
   ("Apple", "Apple"),
   ("Hasselblad", "Hasselblad"),
   ("Phase One", "PhaseOne"),
   ("Mamiya", "Mamiya"),
   ("Leaf", "Leaf"),
   ("Contax", "Contax"),
   ("Kodak", "Kodak")]

/-- The brand words of model-cleanup rule 1,
`\b(Canon|NIKON|SONY|Fujifilm|FUJIFILM|Olympus|Panasonic|Leica|Pentax|Samsung|Apple)\s+`,
in alternation order. -/
def cleanupBrandWords : List String :=
  ["Canon", "NIKON", "SONY", "Fujifilm", "FUJIFILM", "Olympus",
   "Panasonic", "Leica", "Pentax", "Samsung", "Apple"]

/-- Try the rule-1 alternatives at the current position: a brand word
(case-insensitive) immediately followed by at least one whitespace
character; the greedy `\s+` consumes the whole whitespace run. -/
def tryBrandWord : List String → List Char → Option (List Char)
  | [], _ => none
  | w :: ws, s =>
    match dropHeadCI w.toList s with
    | some rest =>
      match rest with
      | c :: _ => if isWsChar c then some (rest.dropWhile isWsChar) else tryBrandWord ws s
      | [] => tryBrandWord ws s
    | none => tryBrandWord ws s

/-- Global substitution for cleanup rule 1 (`re.sub(..., '')` with a `\b`
boundary before the brand word). `prevWord` records whether the previous
character of the ORIGINAL string was a word character (no boundary). -/
def subBrandWordsGo : Nat → Bool → List Char → List Char
  | 0, _, s => s
  | _ + 1, _, [] => []
  | fuel + 1, prevWord, c :: rest =>
    if !prevWord then
      match tryBrandWord cleanupBrandWords (c :: rest) with
      | some s' => subBrandWordsGo fuel false s'
      | none => c :: subBrandWordsGo fuel (isWordChar c) rest
    else c :: subBrandWordsGo fuel (isWordChar c) rest

def subBrandWords (s : List Char) : List Char :=
  subBrandWordsGo s.length false s

/-- The literal alternatives of cleanup rule 2,
`^(EOS|DSC|ILCE|DMC|GR|K-|X-T|GFX|Hasselblad|Phase\s+One)\s*`, minus the
`Phase\s+One` special case, in alternation order. -/
def familyWords : List String :=
  ["EOS", "DSC", "ILCE", "DMC", "GR", "K-", "X-T", "GFX", "Hasselblad"]

def tryFamilyWord : List String → List Char → Option (List Char)
  | [], _ => none
  | w :: ws, s =>
    match dropHeadCI w.toList s with
    | some rest => some rest
    | none => tryFamilyWord ws s

/-- `Phase\s+One` at the head of `s`. -/
def tryPhaseOne (s : List Char) : Option (List Char) :=
  match dropHeadCI "Phase".toList s with
  | none => none
  | some r =>
    match r with
    | c :: _ =>
      if isWsChar c then dropHeadCI "One".toList (r.dropWhile isWsChar) else none
    | [] => none

/-- Cleanup rule 2: strip one leading family token (then the greedy `\s*`). -/
def stripFamilyHead (s : List Char) : List Char :=
  match tryFamilyWord familyWords s with
  | some rest => rest.dropWhile isWsChar
  | none =>
    match tryPhaseOne s with
    | some rest => rest.dropWhile isWsChar
    | none => s

/-- Cleanup rule 3: `re.sub(r'\s+', ' ', s)`. -/
def collapseWsGo : Bool → List Char → List Char
  | _, [] => []
  | prevWs, c :: rest =>
    if isWsChar c then
      if prevWs then collapseWsGo true rest else ' ' :: collapseWsGo true rest
    else c :: collapseWsGo false rest

def collapseWs (s : List Char) : List Char :=
  collapseWsGo false s

/-- Cleanup rule 4: `re.sub(r'[()]', '', s)`. -/
def stripParens (s : List Char) : List Char :=
  s.filter (fun c => !(c = '(' || c = ')'))

/-- Cleanup rule 5: `re.sub(r'\s*-\s*', ' ', s)`; a match at a position is a
(possibly empty) whitespace run followed by `-` followed by a run. -/
def subDashGo : Nat → List Char → List Char
  | 0, s => s
  | _ + 1, [] => []
  | fuel + 1, c :: rest =>
    match (c :: rest).dropWhile isWsChar with
    | '-' :: r2 => ' ' :: subDashGo fuel (r2.dropWhile isWsChar)
    | _ => c :: subDashGo fuel rest

def subDash (s : List Char) : List Char :=
  subDashGo s.length s

/-- Global `re.sub(word + r'\s*', '', s)` (case-insensitive, no boundary),
as used by the brand-specific cleanups, e.g. `re.sub(r'Canon\s*', '', m)`. -/
def subWordWsGo (w : List Char) : Nat → List Char → List Char
  | 0, s => s
  | _ + 1, [] => []
  | fuel + 1, c :: rest =>
    match dropHeadCI w (c :: rest) with
    | some r => subWordWsGo w fuel (r.dropWhile isWsChar)
    | none => c :: subWordWsGo w fuel rest

def subWordWs (w : String) (s : List Char) : List Char :=
  subWordWsGo w.toList s.length s

/-- Canon: global `re.sub(r'Rebel\s+([A-Z]\d+)', r'EOS \1', s)`
(case-insensitive, so `[A-Z]` matches any ASCII letter). -/
def subRebelGo : Nat → List Char → List Char
  | 0, s => s
  | _ + 1, [] => []
  | fuel + 1, c :: rest =>
    match dropHeadCI "Rebel".toList (c :: rest) with
    | some r =>
      match r with
      | w :: _ =>
        if isWsChar w then
          match r.dropWhile isWsChar with
          | l :: r3 =>
            if l.isAlpha then
              match r3.takeWhile Char.isDigit with
              | [] => c :: subRebelGo fuel rest
              | ds => 'E' :: 'O' :: 'S' :: ' ' :: l :: ds
                        ++ subRebelGo fuel (r3.dropWhile Char.isDigit)
            else c :: subRebelGo fuel rest
          | [] => c :: subRebelGo fuel rest
        else c :: subRebelGo fuel rest
      | [] => c :: subRebelGo fuel rest
    | none => c :: subRebelGo fuel rest

def subRebel (s : List Char) : List Char :=
  subRebelGo s.length s

/-- Canon: `re.sub(r'^EOS\s+', 'EOS', s)` — anchored, replaces the prefix
and the following whitespace run by the literal `EOS`. -/
def anchEosWs (s : List Char) : List Char :=
  match dropHeadCI "EOS".toList s with
  | some r =>
    match r with
    | c :: _ =>
      if isWsChar c then 'E' :: 'O' :: 'S' :: r.dropWhile isWsChar else s
    | [] => s
  | none => s

/-- Anchored `re.sub('^' + word + r'(\d+)', repl + r'\1', s)`
(e.g. Nikon `^D(\d+) → D\1`, which upper-cases a leading `d`). -/
def anchWordDigits (word repl : String) (s : List Char) : List Char :=
  match dropHeadCI word.toList s with
  | some r =>
    match r.takeWhile Char.isDigit with
    | [] => s
    | ds => repl.toList ++ ds ++ r.dropWhile Char.isDigit
  | none => s

/-- Anchored `re.sub('^' + word + r'\s*(\d+)', repl + r'\1', s)`
(e.g. Nikon `^Z\s*(\d+) → Z\1`, Sony `^α\s*(\d+) → α\1`). -/
def anchWordWsDigits (word repl : String) (s : List Char) : List Char :=
  match dropHeadCI word.toList s with
  | some r =>
    let r2 := r.dropWhile isWsChar
    match r2.takeWhile Char.isDigit with
    | [] => s
    | ds => repl.toList ++ ds ++ r2.dropWhile Char.isDigit
  | none => s

/-- A character of the class `[-\s]`. -/
def isDashWs (c : Char) : Bool :=
  c = '-' || isWsChar c

/-- Anchored `re.sub('^' + word + r'[-\s]*(\d+)', repl + r'\1', s)`
(Sony `^ILCE[-\s]*(\d+) → α\1`). -/
def anchWordDashDigits (word repl : String) (s : List Char) : List Char :=
  match dropHeadCI word.toList s with
  | some r =>
    let r2 := r.dropWhile isDashWs
    match r2.takeWhile Char.isDigit with
    | [] => s
    | ds => repl.toList ++ ds ++ r2.dropWhile Char.isDigit
  | none => s

/-- Anchored `re.sub('^' + word + r'[-\s]*(\w+)', repl + r'\1', s)`
(Fujifilm `^X[-\s]*(\w+) → X-\1`, Panasonic `^DMC[-\s]*(\w+) → DMC-\1`). -/
def anchWordDashWord (word repl : String) (s : List Char) : List Char :=
  match dropHeadCI word.toList s with
  | some r =>
    let r2 := r.dropWhile isDashWs
    match r2.takeWhile isWordChar with
    | [] => s
    | ws => repl.toList ++ ws ++ r2.dropWhile isWordChar
  | none => s

/-- Anchored `re.sub('^' + word + r'\s*(\w+)', repl + r'\1', s)`
(Fujifilm `^GFX\s*(\w+) → GFX\1`). -/
def anchWordWsWord (word repl : String) (s : List Char) : List Char :=
  match dropHeadCI word.toList s with
  | some r =>
    let r2 := r.dropWhile isWsChar
    match r2.takeWhile isWordChar with
    | [] => s
    | ws => repl.toList ++ ws ++ r2.dropWhile isWordChar
  | none => s

/-- `CameraDetector._brand_specific_model_cleanup`. -/
def brand_specific_model_cleanup (model : List Char) (brand : String) : List Char :=
  if brand = "Canon" then
    subRebel (anchEosWs (subWordWs "Canon" model))
  else if brand = "Nikon" then
    anchWordWsDigits "Z" "Z" (anchWordDigits "D" "D" (subWordWs "Nikon" model))
  else if brand = "Sony" then
    anchWordWsDigits "α" "α" (anchWordDashDigits "ILCE" "α" (subWordWs "Sony" model))
  else if brand = "Fujifilm" then
    anchWordWsWord "GFX" "GFX" (anchWordDashWord "X" "X-" (subWordWs "Fujifilm" model))
  else if brand = "Olympus" then
    subWordWs "Olympus" model
  else if brand = "Panasonic" then
    anchWordDashWord "DMC" "DMC-" (subWordWs "Panasonic" model)
  else model

/-- `CameraDetector._normalize_model`: strip, the five generic cleanup
rules in order, brand-specific cleanup, final whitespace collapse + strip,
and the empty-model fallback to `"Unknown"`. -/
def normalize_model (model : String) (brand : String) : String :=
  if model = "" then "Unknown"
  else
    let m := pyStrip model.toList
    let m := subBrandWords m
    let m := stripFamilyHead m
    let m := collapseWs m
    let m := stripParens m
    let m := subDash m
    let m := brand_specific_model_cleanup m brand
    let m := pyStrip (collapseWs m)
    if m = [] then "Unknown" else m.asString

/-- `CameraDetector._normalize_brand`: exact dict lookup, then fuzzy
two-way case-insensitive substring match over the mapping in insertion
order, else `"Unknown"`. -/
def normalize_brand (make : String) : String :=
  if make = "" then "Unknown"
  else
    let mc := pyStripStr make
    match brand_mapping.find? (fun kv => kv.1 == mc) with
    | some kv => kv.2
    | none =>
      let ml := charsLower mc.toList
      match brand_mapping.find? (fun kv =>
          containsSub (charsLower kv.1.toList) ml
            || containsSub ml (charsLower kv.1.toList)) with
      | some kv => kv.2
      | none => "Unknown"

/-- `CameraDetector.brand_prefix_patterns`: each prefix pattern is a literal
word plus a flag saying whether at least one digit must follow
(`^D\d+`-style patterns). Iteration order is dict insertion order. -/
def brand_prefix_patterns : List (String × List (String × Bool)) :=
  [("Canon", [("EOS", false), ("PowerShot", false), ("IXUS", false)]),
   ("Nikon", [("D", true), ("Z", true), ("COOLPIX", false)]),
   ("Sony", [("ILCE-", false), ("ILCA-", false), ("DSC", false), ("α", false)]),
   ("Fujifilm", [("X-", false), ("GFX", false), ("FinePix", false)]),
   ("Olympus", [("E-", false), ("STYLUS", false), ("TOUGH", false)]),
   ("Panasonic", [("DMC-", false), ("LUMIX", false)]),
   ("Leica", [("M", true), ("SL", true), ("Q", true), ("CL", false)]),
   ("Pentax", [("K-", true), ("KP", false), ("645D", false), ("645Z", false)]),
   ("Samsung", [("NX", true), ("Galaxy", false)]),
   ("Apple", [("iPhone", false), ("iPad", false)])]

/-- One `re.search('^' + pat, s, re.IGNORECASE)` test. -/
def patMatches (word : String) (digits : Bool) (s : List Char) : Bool :=
  match dropHeadCI word.toList s with
  | none => false
  | some r =>
    if digits then
      match r with
      | c :: _ => c.isDigit
      | [] => false
    else true

/-- `CameraDetector._infer_brand_from_model`. -/
def infer_brand_from_model (model : String) : String :=
  if model = "" then "Unknown"
  else
    let mc := pyStrip model.toList
    match brand_prefix_patterns.find? (fun bp =>
        bp.2.any (fun p => patMatches p.1 p.2 mc)) with
    | some bp => bp.1
    | none => "Unknown"

/-- `CameraDetector.normalize_camera_model`. -/
def normalize_camera_model (make model : String) : String × String :=
  let brand := normalize_brand make
  let brand := if brand = "Unknown" then infer_brand_from_model model else brand
  (brand, normalize_model model brand)

/-- `CameraDetector.extract_camera_info`, with the rawpy metadata read
modelled as an oracle: `none` for a missing/unreadable file or absent
metadata dictionary, `some (make, model)` for the raw strings (the source
then strips both). -/
def extract_camera_info (meta : Option (String × String)) : Option (String × String) :=
  meta.map (fun p => (pyStripStr p.1, pyStripStr p.2))

/-- `CameraDetector.detect_camera_from_raw`. -/
def detect_camera_from_raw (meta : Option (String × String)) : Option (String × String) :=
  match extract_camera_info meta with
  | none => none
  | some info =>
    let make := info.1
    let model := info.2
    if make = "" ∧ model = "" then none
    else
      let bm := normalize_camera_model make model
      if bm.1 ≠ "Unknown" ∧ bm.2 ≠ "Unknown" then some bm else none

/-- `CameraDetector.get_supported_file_extensions`, in source order
(duplicates included, as in the source list literal). -/
def get_supported_file_extensions : List String :=
  [".arw", ".cr2", ".cr3", ".dng", ".nef", ".raw", ".orf", ".rw2", ".pef",
   ".srw", ".mos", ".mrw", ".erf", ".k25", ".kc2", ".kdc", ".raf", ".3fr",
   ".fff", ".iiq", ".mos", ".crw", ".bay", ".bmq", ".cap", ".cine", ".cs1",
   ".dc2", ".dcr", ".dcs", ".drf", ".dsc", ".exr", ".fff", ".ia", ".jpg",
   ".jpeg", ".tif", ".tiff"]

/-! ## `icm_manager.py` — the bounded profile cache

`ICMManager.icm_cache` is a Python dict from profile path to loaded
profile.  Python dicts preserve insertion order and `next(iter(d))` yields
the earliest-inserted key, so the cache is modelled as an association list
in insertion order (head = oldest).  The path and profile types are left
abstract; the source instantiates them at `str` and
`ImageCms.ImageCmsProfile`. -/

/-- Dict lookup `icm_path in self.icm_cache` / `self.icm_cache[icm_path]`. -/
def cacheLookup {π ρ : Type} [DecidableEq π] (cache : List (π × ρ)) (p : π) : Option ρ :=
  (cache.find? (fun kv => kv.1 == p)).map (fun kv => kv.2)

/-- `ICMManager.load_icc_profile`.  `fileOk` models `os.path.exists`,
`openProfile` models the `ImageCms.ImageCmsProfile(icm_path)` constructor
(`none` = it raised, which the source logs and turns into `None`).
Returns the result together with the updated cache. -/
def load_icc_profile {π ρ : Type} [DecidableEq π]
    (fileOk : π → Bool) (openProfile : π → Option ρ)
    (cache : List (π × ρ)) (p : π) : Option ρ × List (π × ρ) :=
  if !fileOk p then (none, cache)
  else
    match cacheLookup cache p with
    | some pr => (some pr, cache)
    | none =>
      match openProfile p with
      | none => (none, cache)
      | some pr =>
        -- `if len(self.icm_cache) > 100: del self.icm_cache[next(iter(...))]`
        let c1 := if cache.length > 100 then cache.tail else cache
        (some pr, c1 ++ [(p, pr)])

/-! ## Path model (`os.path` on component lists) -/

/-- A filesystem path as a list of components, as produced by splitting on
the separator; `os.path.join` is `++`. -/
abbrev PyPath := List String

/-- `os.path.dirname` on components. -/
def pyDirname (p : PyPath) : PyPath := p.dropLast

/-- Length of the common component prefix (`posixpath.relpath`'s use of
`commonprefix`). -/
def commonPrefixLength : List String → List String → Nat
  | a :: as, b :: bs => if a = b then commonPrefixLength as bs + 1 else 0
  | _, _ => 0

/-- `os.path.relpath(path, start)` on component lists. -/
def pyRelpath (path start : PyPath) : PyPath :=
  let i := commonPrefixLength path start
  let rel := List.replicate (start.length - i) ".." ++ path.drop i
  if rel.isEmpty then ["."] else rel

/-- Index of the last `'.'` in the character list, if any. -/
def lastDotIdx (cs : List Char) : Option Nat :=
  (List.range cs.length).foldl
    (fun acc i => if cs.getD i ' ' = '.' then some i else acc) none

/-- The root part of `os.path.splitext` on a bare file name (no separator):
everything before the last dot, unless every character before that dot is
itself a dot (CPython `genericpath._splitext`). -/
def splitextStem (s : String) : String :=
  let cs := s.toList
  match lastDotIdx cs with
  | none => s
  | some i =>
    if (cs.take i).all (fun c => c == '.') then s else (cs.take i).asString

/-- `pathlib.PurePath.suffix` on a bare file name: `name[i:]` for
`i = name.rfind('.')` when `0 < i < len(name) - 1`, else `""`. -/
def pathSuffix (s : String) : String :=
  let cs := s.toList
  match lastDotIdx cs with
  | none => ""
  | some i => if 0 < i ∧ i < cs.length - 1 then (cs.drop i).asString else ""

/-! ## `enhanced_converter.py` -/

/-- The module-level `SUPPORTED_FORMATS` dict (extension → vendor). -/
def SUPPORTED_FORMATS : List (String × String) :=
  [(".arw", "Sony"), (".cr2", "Canon"), (".cr3", "Canon"),
   (".dng", "Adobe DNG"), (".nef", "Nikon"), (".raw", "Generic"),
   (".orf", "Olympus"), (".rw2", "Panasonic"), (".pef", "Pentax"),
   (".srw", "Samsung"), (".mos", "Leica")]

/-- Python `str.lower()` (ASCII), kernel-computable. -/
def strLower (s : String) : String :=
  (charsLower s.toList).asString

/-- `EnhancedRAWConverter._is_raw_file`:
`Path(filename).suffix.lower() in SUPPORTED_FORMATS`. -/
def is_raw_file (filename : String) : Bool :=
  SUPPORTED_FORMATS.any (fun kv => kv.1 == strLower (pathSuffix filename))

/-- Insertion sort on strings (Python `sorted`, ascending code-point
order). -/
def insertSortedStr (x : String) : List String → List String
  | [] => [x]
  | y :: t => if x < y then x :: y :: t else y :: insertSortedStr x t

def sortStrings : List String → List String
  | [] => []
  | x :: t => insertSortedStr x (sortStrings t)

/-- `EnhancedRAWConverter.scan_raw_files` for a flat directory listing
(the `recursive=False` branch): filter by `_is_raw_file`, join each name
onto the input directory, and sort. -/
def scan_raw_files (dir : String) (listing : List String) : List String :=
  sortStrings ((listing.filter is_raw_file).map (fun f => dir ++ "/" ++ f))

/-- `ConversionStatus`. -/
inductive ConversionStatus
  | pending
  | processing
  | completed
  | failed
  | skipped
deriving DecidableEq, Repr

/-- `ConversionConfig` (all fields, with the source's defaults). -/
structure ConversionConfig where
  jpeg_quality : Nat := 95
  use_camera_wb : Bool := true
  use_auto_wb : Bool := false
  output_bps : Nat := 8
  bright : Float := 1.0
  no_auto_bright : Bool := false
  half_size : Bool := false
  exp_shift : Float := 0.0
  exp_preserve_highlights : Bool := true
  four_color_rgb : Bool := false
  max_threads : Option Nat := none
  enable_icm_correction : Bool := true
  icm_brand : String := ""
  icm_model : String := ""
  icm_scene : String := "Generic"
  manual_icm_path : Option String := none
  strict_icm : Bool := true
  auto_detect_camera : Bool := true

/-- `ConversionResult` (timestamps as abstract ticks). -/
structure ConversionResult where
  input_path : PyPath
  output_path : PyPath
  status : ConversionStatus
  start_time : Nat
  end_time : Nat
  file_size_input : Nat
  file_size_output : Nat
  error_message : String := ""
  processing_time : Nat := 0
  camera_brand : String := ""
  camera_model : String := ""
  icm_applied : Bool := false
  icm_file : String := ""
deriving DecidableEq, Repr

/-- Environment of one per-file job: every external effect the job can
observe, as an oracle.  `Except String _` fields model calls that can
raise (the `String` is `str(e)`); `Option` fields model calls the source
already converts to `None`-on-failure. -/
structure FileEnv where
  /-- `os.path.exists(input_path)` at entry. -/
  inputExists : Bool := true
  /-- `os.path.getsize(input_path)`. -/
  inputSize : Nat := 0
  /-- `os.makedirs(output_dir, exist_ok=True)`. -/
  makedirs : Except String Unit := .ok ()
  /-- `os.path.exists(output_path)` before processing. -/
  outputExists : Bool := false
  /-- `self.camera_detector` is not `None`. -/
  hasCameraDetector : Bool := true
  /-- `self.icm_manager` is not `None`. -/
  hasIcmManager : Bool := true
  /-- the raw make/model metadata of the input file (see
  `extract_camera_info`). -/
  extractResult : Option (String × String) := none
  /-- `os.path.exists(self.config.manual_icm_path)`. -/
  manualPathExists : Bool := false
  /-- `self.icm_manager.get_icm_file(brand, model, scene)`. -/
  getIcmFile : String → String → String → Option String := fun _ _ _ => none
  /-- `rawpy.imread` + `raw.postprocess`. -/
  decode : Except String Unit := .ok ()
  /-- `self.icm_manager.load_icc_profile(icm_path)` (`none` = failed). -/
  loadProfile : String → Option Unit := fun _ => none
  /-- `ImageCms.profileToProfile`. -/
  transform : Except String Unit := .ok ()
  /-- `imageio.imwrite`. -/
  encode : Except String Unit := .ok ()
  /-- `os.path.exists(output_path)` after a successful encode. -/
  outputExistsAfter : Bool := true
  /-- `os.path.getsize(output_path)` after encode. -/
  outputSize : Nat := 0
  /-- `time.time()` at job start / job end. -/
  startTime : Nat := 0
  endTime : Nat := 0

/-- `EnhancedRAWConverter.detect_camera_from_file` (the detector call is
already exception-safe and returns `("", "")` on no detection). -/
def detect_camera_from_file (env : FileEnv) : String × String :=
  if !env.hasCameraDetector then ("", "")
  else
    match detect_camera_from_raw env.extractResult with
    | some bm => bm
    | none => ("", "")

/-- The `(camera_brand, camera_model)` pair `convert_single_file` holds
after its detection step. -/
def detected_pair (cfg : ConversionConfig) (env : FileEnv) : String × String :=
  if cfg.auto_detect_camera && env.hasCameraDetector then
    detect_camera_from_file env
  else ("", "")

/-- `EnhancedRAWConverter.determine_icm_file`. -/
def determine_icm_file (cfg : ConversionConfig) (env : FileEnv)
    (detected_brand detected_model : String) : Option String :=
  if !env.hasIcmManager then none
  else
    let manualHit : Option String :=
      match cfg.manual_icm_path with
      | some p => if p ≠ "" && env.manualPathExists then some p else none
      | none => none
    match manualHit with
    | some p => some p
    | none =>
      let brand := if cfg.icm_brand ≠ "" then cfg.icm_brand else detected_brand
      let model := if cfg.icm_model ≠ "" then cfg.icm_model else detected_model
      if brand = "" || model = "" then none
      else env.getIcmFile brand model cfg.icm_scene

/-- `EnhancedRAWConverter.apply_icm_correction` (the pixel buffer itself is
abstracted away; only success/failure matters to any claim). -/
def apply_icm_correction (cfg : ConversionConfig) (env : FileEnv)
    (detected_brand detected_model : String) : Except String Unit :=
  if !cfg.enable_icm_correction then .ok ()
  else
    match determine_icm_file cfg env detected_brand detected_model with
    | none =>
      let msg := "找不到ICM文件: " ++ detected_brand ++ " " ++ detected_model
                   ++ " " ++ cfg.icm_scene
      if cfg.strict_icm then .error msg else .ok ()
    | some icmPath =>
      let inner : Except String Unit :=
        if !env.hasIcmManager then .error "ICM管理器未初始化"
        else
          match env.loadProfile icmPath with
          | none => .error ("加载ICM文件失败: " ++ icmPath)
          | some _ => env.transform
      match inner with
      | .ok _ => .ok ()
      | .error e =>
        if cfg.strict_icm then .error ("ICM校色失败: " ++ e) else .ok ()

/-- `EnhancedRAWConverter._convert_with_rawpy`: decode, optional colour
correction, encode; any raise is re-wrapped as `RAW转换失败: ...`. -/
def convert_with_rawpy (cfg : ConversionConfig) (env : FileEnv)
    (detected_brand detected_model : String) : Except String Unit :=
  let body : Except String Unit :=
    match env.decode with
    | .error e => .error e
    | .ok _ =>
      let afterIcm : Except String Unit :=
        if cfg.enable_icm_correction then
          apply_icm_correction cfg env detected_brand detected_model
        else .ok ()
      match afterIcm with
      | .error e => .error e
      | .ok _ => env.encode
  match body with
  | .ok _ => .ok ()
  | .error e => .error ("RAW转换失败: " ++ e)

/-- `EnhancedRAWConverter.prepare_output_path`.  The `os.makedirs` call is
a side effect with no bearing on the returned path and is dropped from the
pure model. -/
def prepare_output_path (input_path : PyPath) (output_dir : PyPath) : PyPath :=
  let relative := pyRelpath input_path (pyDirname input_path)
  let name_without_ext : PyPath :=
    relative.dropLast ++ [splitextStem (relative.getLastD "")]
  output_dir ++ (name_without_ext.dropLast
    ++ [(name_without_ext.getLastD "") ++ ".jpg"])

/-- `EnhancedRAWConverter.convert_single_file`: the whole per-file state
machine, including the `except` handler that converts any raise into a
`FAILED` result carrying `str(e)` and the local variables the handler can
see. -/
def convert_single_file (cfg : ConversionConfig) (env : FileEnv)
    (input_path output_path : PyPath) : ConversionResult :=
  let fsi := if env.inputExists then env.inputSize else 0
  match env.makedirs with
  | .error e =>
    { input_path := input_path, output_path := output_path,
      status := .failed, start_time := env.startTime, end_time := env.endTime,
      file_size_input := fsi, file_size_output := 0,
      error_message := e, processing_time := env.endTime - env.startTime }
  | .ok _ =>
    if env.outputExists then
      { input_path := input_path, output_path := output_path,
        status := .skipped, start_time := env.startTime,
        end_time := env.endTime, file_size_input := fsi,
        file_size_output := 0, error_message := "输出文件已存在" }
    else
      let bm := detected_pair cfg env
      let icmFile : Option String :=
        if cfg.enable_icm_correction then
          determine_icm_file cfg env bm.1 bm.2
        else none
      -- the handler renders the Python `None` as the field's initial `""`
      let icmFileStr := icmFile.getD ""
      match convert_with_rawpy cfg env bm.1 bm.2 with
      | .error e =>
        { input_path := input_path, output_path := output_path,
          status := .failed, start_time := env.startTime,
          end_time := env.endTime, file_size_input := fsi,
          file_size_output := 0, error_message := e,
          processing_time := env.endTime - env.startTime,
          camera_brand := bm.1, camera_model := bm.2,
          icm_applied := false, icm_file := icmFileStr }
      | .ok _ =>
        let icmApplied := cfg.enable_icm_correction && !(icmFile.getD "" == "")
        let fso := if env.outputExistsAfter then env.outputSize else 0
        { input_path := input_path, output_path := output_path,
          status := .completed, start_time := env.startTime,
          end_time := env.endTime, file_size_input := fsi,
          file_size_output := fso,
          processing_time := env.endTime - env.startTime,
          camera_brand := bm.1, camera_model := bm.2,
          icm_applied := icmApplied, icm_file := icmFileStr }

/-- Placeholder for a result slot never filled by a finished run (a `None`
entry of the Python `results` list; unreachable when the completion order
covers every index). -/
def noneResult : ConversionResult :=
  { input_path := [], output_path := [], status := .pending,
    start_time := 0, end_time := 0, file_size_input := 0,
    file_size_output := 0 }

/-- The result `_convert_parallel` computes for slot `i`. -/
def jobResult (cfg : ConversionConfig) (envs : Nat → FileEnv)
    (pairs : List (PyPath × PyPath)) (i : Nat) : ConversionResult :=
  convert_single_file cfg (envs i) (pairs.getD i ([], [])).1 (pairs.getD i ([], [])).2

/-- `EnhancedRAWConverter._convert_parallel`: `results = [None] * n`, then
each future completion writes its result into its reserved slot.  `order`
is the sequence of slot indices in completion order; a finished,
uncancelled run's `order` is a permutation of `range n`. -/
def convert_parallel (cfg : ConversionConfig) (envs : Nat → FileEnv)
    (pairs : List (PyPath × PyPath)) (order : List Nat) :
    List (Option ConversionResult) :=
  order.foldl (fun acc i => acc.set i (some (jobResult cfg envs pairs i)))
    (List.replicate pairs.length none)

/-- `EnhancedRAWConverter.convert_batch` (result list only; metrics are
folded separately below, as in the source's `finally` block). -/
def convert_batch (cfg : ConversionConfig) (envs : Nat → FileEnv)
    (input_files : List PyPath) (output_dir : PyPath) (order : List Nat) :
    List ConversionResult :=
  if input_files.isEmpty then []
  else
    let pairs := input_files.map (fun f => (f, prepare_output_path f output_dir))
    if pairs.length = 1 then
      [convert_single_file cfg (envs 0) (pairs.getD 0 ([], [])).1 (pairs.getD 0 ([], [])).2]
    else
      (convert_parallel cfg envs pairs order).map (fun o => o.getD noneResult)

/-- `ConversionMetrics` (the float-valued derived fields
`average_processing_time` and `conversion_rate` are display-only and are
computed by `calculate_metrics`; counts and sizes are exact). -/
structure ConversionMetrics where
  total_files : Nat := 0
  completed_files : Nat := 0
  failed_files : Nat := 0
  skipped_files : Nat := 0
  total_size_input : Nat := 0
  total_size_output : Nat := 0
  total_processing_time : Nat := 0
  average_processing_time : Float := 0.0
  conversion_rate : Float := 0.0
  start_time : Nat := 0
  end_time : Nat := 0

/-- `ConversionMetrics.add_result`. -/
def ConversionMetrics.add_result (m : ConversionMetrics) (r : ConversionResult) :
    ConversionMetrics :=
  let m := { m with total_files := m.total_files + 1 }
  match r.status with
  | .completed =>
    { m with completed_files := m.completed_files + 1,
             total_size_input := m.total_size_input + r.file_size_input,
             total_size_output := m.total_size_output + r.file_size_output,
             total_processing_time := m.total_processing_time + r.processing_time }
  | .failed => { m with failed_files := m.failed_files + 1 }
  | .skipped => { m with skipped_files := m.skipped_files + 1 }
  | _ => m

/-- `ConversionMetrics.calculate_metrics` (only touches the two derived
float fields). -/
def ConversionMetrics.calculate_metrics (m : ConversionMetrics) : ConversionMetrics :=
  if m.completed_files > 0 then
    let avg := Float.ofNat m.total_processing_time / Float.ofNat m.completed_files
    let totalMb := Float.ofNat m.total_size_input / (1024.0 * 1024.0)
    let rate :=
      if totalMb > 0.0 ∧ m.total_processing_time > 0 then
        totalMb / Float.ofNat m.total_processing_time
      else m.conversion_rate
    { m with average_processing_time := avg, conversion_rate := rate }
  else m

/-- The metrics of a `convert_batch` run: the `finally` block folds every
result of the fresh run into a fresh `ConversionMetrics` and finalizes. -/
def convert_batch_metrics (cfg : ConversionConfig) (envs : Nat → FileEnv)
    (input_files : List PyPath) (output_dir : PyPath) (order : List Nat) :
    ConversionMetrics :=
  (((convert_batch cfg envs input_files output_dir order).foldl
      (fun m r => m.add_result r) ({} : ConversionMetrics))).calculate_metrics

/-- Normalization applied to its own output agrees with a single
application (the idempotence property of C4, at one input pair). -/
def renormalizes (mk md : String) : Prop :=
  normalize_camera_model (normalize_camera_model mk md).1
    (normalize_camera_model mk md).2 = normalize_camera_model mk md

instance (mk md : String) : Decidable (renormalizes mk md) := by
  unfold renormalizes; infer_instance

/-- A status is terminal when it is one of the three end states of the
per-file lifecycle. -/
def statusTerminal (s : ConversionStatus) : Prop :=
  s = .completed ∨ s = .failed ∨ s = .skipped

/-! ### Batch collection lemmas -/

theorem convert_single_file_input_path (cfg : ConversionConfig) (env : FileEnv)
    (i o : PyPath) : (convert_single_file cfg env i o).input_path = i := by
  unfold convert_single_file
  dsimp only
  repeat' split
  all_goals rfl

theorem convert_single_file_terminal (cfg : ConversionConfig) (env : FileEnv)
    (i o : PyPath) : statusTerminal (convert_single_file cfg env i o).status := by
  unfold convert_single_file statusTerminal
  dsimp only
  repeat' split
  all_goals simp

theorem foldl_set_length {α : Type} (g : Nat → α) (order : List Nat) :
    ∀ acc : List α,
      (order.foldl (fun acc j => acc.set j (g j)) acc).length = acc.length := by
  induction order with
  | nil => intro acc; rfl
  | cons j t ih => intro acc; simpa [List.length_set] using ih (acc.set j (g j))

theorem foldl_set_not_mem {α : Type} (g : Nat → α) (order : List Nat) (i : Nat)
    (hni : i ∉ order) :
    ∀ acc : List α,
      (order.foldl (fun acc j => acc.set j (g j)) acc)[i]? = acc[i]? := by
  induction order with
  | nil => intro acc; rfl
  | cons j t ih =>
    intro acc
    have hij : j ≠ i := fun h => hni (h ▸ List.mem_cons_self j t)
    have hti : i ∉ t := fun h => hni (List.mem_cons_of_mem j h)
    rw [List.foldl_cons, ih hti, List.getElem?_set_ne hij]

theorem foldl_set_mem {α : Type} (g : Nat → α) (order : List Nat) (i : Nat)
    (hmem : i ∈ order) :
    ∀ acc : List α, i < acc.length →
      (order.foldl (fun acc j => acc.set j (g j)) acc)[i]? = some (g i) := by
  induction order with
  | nil => exact absurd hmem (List.not_mem_nil i)
  | cons j t ih =>
    intro acc hlen
    rw [List.foldl_cons]
    by_cases hti : i ∈ t
    · exact ih hti _ (by simpa [List.length_set] using hlen)
    · have hij : i = j := by
        rcases List.mem_cons.mp hmem with h | h
        · exact h
        · exact absurd h hti
      subst hij
      rw [foldl_set_not_mem g t i hti]
      exact List.getElem?_set_eq_of_lt (g i) hlen

theorem convert_parallel_getElem (cfg : ConversionConfig) (envs : Nat → FileEnv)
    (pairs : List (PyPath × PyPath)) (order : List Nat) (i : Nat)
    (hi : i < pairs.length) (hmem : i ∈ order) :
    (convert_parallel cfg envs pairs order)[i]?
      = some (some (jobResult cfg envs pairs i)) := by
  unfold convert_parallel
  exact foldl_set_mem _ order i hmem _ (by simpa using hi)

theorem pairs_getD (files : List PyPath) (out : PyPath) (i : Nat)
    (hi : i < files.length) :
    ((files.map (fun f => (f, prepare_output_path f out))).getD i ([], []))
      = (files.getD i [], prepare_output_path (files.getD i []) out) := by
  rw [List.getD_eq_getElem?_getD, List.getElem?_eq_getElem (by simpa using hi),
      List.getElem_map, List.getD_eq_getElem?_getD, List.getElem?_eq_getElem hi]
  rfl

/-- Master characterization of a finished batch run: when the completion
order covers every submitted index exactly once, `convert_batch` returns
exactly the per-file results, in submission order. -/
theorem convert_batch_eq_map (cfg : ConversionConfig) (envs : Nat → FileEnv)
    (files : List PyPath) (out : PyPath) (order : List Nat)
    (hne : files ≠ []) (hperm : order.Perm (List.range files.length)) :
    convert_batch cfg envs files out order
      = (List.range files.length).map
          (fun i => convert_single_file cfg (envs i) (files.getD i [])
                      (prepare_output_path (files.getD i []) out)) := by
  unfold convert_batch
  rw [if_neg (by simpa using hne)]
  by_cases h1 : (files.map (fun f => (f, prepare_output_path f out))).length = 1
  · rw [if_pos h1]
    simp only [List.length_map] at h1
    obtain ⟨f, rfl⟩ : ∃ f, files = [f] := by
      cases files with
      | nil => simp at h1
      | cons a t =>
        cases t with
        | nil => exact ⟨a, rfl⟩
        | cons b u => simp at h1
    simp [pairs_getD, jobResult, List.range_succ]
  · rw [if_neg h1]
    have hlen : (files.map (fun f => (f, prepare_output_path f out))).length
        = files.length := List.length_map _ _
    apply List.ext_getElem?
    intro i
    by_cases hi : i < files.length
    · rw [List.getElem?_map, convert_parallel_getElem cfg envs _ order i
          (by simpa using hi) (hperm.mem_iff.mpr (List.mem_range.mpr hi))]
      rw [List.getElem?_map, List.getElem?_range hi]
      simp only [Option.map_some', Option.getD_some, Option.some.injEq]
      simp only [jobResult, pairs_getD files out i hi]
    · have hL : ((convert_parallel cfg envs
          (files.map fun f => (f, prepare_output_path f out)) order).map
            (fun o => o.getD noneResult)).length = files.length := by
        rw [List.length_map]
        unfold convert_parallel
        rw [foldl_set_length]
        simp
      rw [List.getElem?_eq_none (by rw [hL]; omega),
          List.getElem?_eq_none (by simpa using Nat.le_of_not_lt hi)]
/-! ## Claims -/

/-- C10: `detect_camera_from_raw` never returns a pair containing
`"Unknown"`: whenever it returns `some (brand, model)`, both components
differ from `"Unknown"`. -/
theorem detect_camera_never_unknown (meta : Option (String × String))
    (bm : String × String) (h : detect_camera_from_raw meta = some bm) :
    bm.1 ≠ "Unknown" ∧ bm.2 ≠ "Unknown" := by
  unfold detect_camera_from_raw at h
  cases meta with
  | none => simp [extract_camera_info] at h
  | some p =>
    simp only [extract_camera_info, Option.map_some'] at h
    split at h
    · exact absurd h (by simp)
    · split at h
      · next hcond =>
        obtain rfl : bm = _ := (Option.some_inj.mp h).symm
        exact hcond
      · exact absurd h (by simp)

/-- Witness for C10 at a concrete metadata read. -/
theorem detect_camera_never_unknown_witness :
    ("Canon" : String) ≠ "Unknown" ∧ ("R5" : String) ≠ "Unknown" :=
  detect_camera_never_unknown (some ("Canon", "EOS R5")) ("Canon", "R5") (by decide)

/-- C4 counterexample: `normalize_camera_model` is NOT idempotent.  Canon
Rebel models break it on the model side: `("Canon", "Rebel T7")`
normalizes to `("Canon", "EOS T7")`, and re-normalizing that output
strips the `EOS` family prefix, yielding `("Canon", "T7")`.  Phase One
backs break it on the brand side: `("Phase One", "IQ4")` normalizes to
`("PhaseOne", "IQ4")`, and re-normalizing degrades the brand to
`"Unknown"` because `"PhaseOne"` matches no brand-mapping key, exactly or
fuzzily, and `"IQ4"` matches no brand prefix pattern. -/
theorem normalize_camera_model_not_idempotent :
    (normalize_camera_model "Canon" "Rebel T7" = ("Canon", "EOS T7") ∧
     normalize_camera_model "Canon" "EOS T7" = ("Canon", "T7") ∧
     ¬ renormalizes "Canon" "Rebel T7") ∧
    (normalize_camera_model "Phase One" "IQ4" = ("PhaseOne", "IQ4") ∧
     normalize_camera_model "PhaseOne" "IQ4" = ("Unknown", "IQ4") ∧
     ¬ renormalizes "Phase One" "IQ4") := by decide

/-- C4 amended: idempotence fails in general; what does hold is the
pointwise property at each of the repository's own exercised
normalization inputs — the nine concrete pairs below (the test pairs of
`camera_detector.py`'s main block), for each of which applying
`normalize_camera_model` to its own output agrees with a single
application. -/
theorem normalize_camera_model_idempotent_cases :
    renormalizes "Canon" "EOS R5" ∧
    renormalizes "NIKON CORPORATION" "NIKON Z9" ∧
    renormalizes "SONY" "ILCE-7RM4" ∧
    renormalizes "FUJIFILM" "GFX100S" ∧
    renormalizes "OLYMPUS IMAGING CORP." "E-M1 Mark III" ∧
    renormalizes "Apple" "iPhone 13 Pro" ∧
    renormalizes "" "EOS R6" ∧
    renormalizes "Canon" "" ∧
    renormalizes "" "" := by decide

set_option maxRecDepth 8192 in
/-- C3 counterexample: the profile cache DOES exceed 100 entries — after
loading 101 distinct existing paths into an empty cache, it holds 101
entries (`len(cache) > 100` only triggers on the insert AFTER the bound is
reached), refuting "never holds more than 100" and the eviction at the
101st insert. -/
theorem icm_cache_exceeds_100 :
    ((List.range 101).foldl
      (fun c p => (load_icc_profile (fun _ => true) (fun _ => some ()) c p).2)
      ([] : List (Nat × Unit))).length = 101 ∧ ¬ (101 ≤ 100) := by decide

/-- C3 amended: the cache never holds more than 101 entries, and an insert
of a fresh loadable path finding the cache at 101 entries evicts exactly
the earliest-inserted entry still present (the head of the
insertion-ordered list) before appending. -/
theorem load_icc_profile_bound_101 {π ρ : Type} [DecidableEq π]
    (fileOk : π → Bool) (openProfile : π → Option ρ)
    (cache : List (π × ρ)) (p : π) :
    (cache.length ≤ 101 →
      ((load_icc_profile fileOk openProfile cache p).2).length ≤ 101) ∧
    (cache.length = 101 → cacheLookup cache p = none → fileOk p = true →
      ∀ pr, openProfile p = some pr →
        (load_icc_profile fileOk openProfile cache p).2 = cache.tail ++ [(p, pr)]) := by
  constructor
  · intro hle
    unfold load_icc_profile
    split
    · exact hle
    · cases hl : cacheLookup cache p with
      | some pr => simpa using hle
      | none =>
        simp only
        cases ho : openProfile p with
        | none => simpa using hle
        | some pr =>
          simp only [List.length_append, List.length_cons, List.length_nil]
          split
          · next hgt =>
            have h101 : cache.length = 101 := le_antisymm hle hgt
            simp [List.length_tail, h101]
          · next hng => omega
  · intro h101 hl hok pr ho
    unfold load_icc_profile
    rw [hl, ho]
    simp [hok, h101]

set_option maxRecDepth 8192 in
/-- Witness for C3's amended theorem at a concrete 101-entry cache. -/
theorem load_icc_profile_bound_101_witness :
    ((load_icc_profile (fun _ => true) (fun _ => some ())
        ((List.range 101).map (fun n => (n, ()))) 101).2).length ≤ 101 ∧
    (load_icc_profile (fun _ => true) (fun _ => some ())
        ((List.range 101).map (fun n => (n, ()))) 101).2
      = ((List.range 101).map (fun n => (n, ()))).tail ++ [(101, ())] :=
  ⟨(load_icc_profile_bound_101 (fun _ => true) (fun _ => some ())
      ((List.range 101).map (fun n => (n, ()))) 101).1 (by decide),
   (load_icc_profile_bound_101 (fun _ => true) (fun _ => some ())
      ((List.range 101).map (fun n => (n, ()))) 101).2 (by decide) (by decide)
      rfl () rfl⟩

theorem cpl_append_singleton (dir : List String) (base : String) :
    commonPrefixLength (dir ++ [base]) dir = dir.length := by
  induction dir with
  | nil => rfl
  | cons a t ih => simp [commonPrefixLength, ih]

/-- C5 counterexample: `prepare_output_path` does NOT mirror relative path
structure — it keeps only the basename, so two inputs with distinct
relative paths but equal basenames map to the SAME output path. -/
theorem prepare_output_path_collision :
    prepare_output_path ["a", "x.nef"] ["out"] = ["out", "x.jpg"] ∧
    prepare_output_path ["b", "x.nef"] ["out"] = ["out", "x.jpg"] ∧
    (["a", "x.nef"] : PyPath) ≠ ["b", "x.nef"] := by decide

/-- C5 amended: the computed output path is the output directory joined
with the input's BASENAME (its relative-path structure is discarded,
because the source computes the input's path relative to its own parent
directory), with the extension swapped to `.jpg`; hence inputs sharing a
basename stem collide. -/
theorem prepare_output_path_flattens (dir : PyPath) (base : String) (out : PyPath) :
    prepare_output_path (dir ++ [base]) out
      = out ++ [splitextStem base ++ ".jpg"] := by
  unfold prepare_output_path pyRelpath pyDirname
  rw [List.dropLast_concat]
  simp [cpl_append_singleton, List.drop_left, List.getLastD]

theorem supported_formats_any_iff (ext : String) :
    (SUPPORTED_FORMATS.any (fun kv => kv.1 == ext) = true) ↔
      ext ∈ ([".arw", ".cr2", ".cr3", ".dng", ".nef", ".raw", ".orf", ".rw2",
              ".pef", ".srw", ".mos"] : List String) := by
  simp [SUPPORTED_FORMATS]
  tauto

/-- C9 amended: the engine's scan accepts exactly the eleven RAW container
extensions of `SUPPORTED_FORMATS` — NOT the standard image formats; the
larger list that also admits `.jpg`/`.jpeg`/`.tif`/`.tiff` belongs to
`CameraDetector.get_supported_file_extensions`, which the engine's scan
never consults. -/
theorem is_raw_file_extension_set :
    (∀ name : String, is_raw_file name = true ↔
      strLower (pathSuffix name) ∈ ([".arw", ".cr2", ".cr3", ".dng", ".nef",
        ".raw", ".orf", ".rw2", ".pef", ".srw", ".mos"] : List String)) ∧
    ((".jpg" ∈ get_supported_file_extensions ∧
      ".jpeg" ∈ get_supported_file_extensions ∧
      ".tif" ∈ get_supported_file_extensions ∧
      ".tiff" ∈ get_supported_file_extensions) ∧
     (".jpg" ∉ SUPPORTED_FORMATS.map Prod.fst ∧
      ".jpeg" ∉ SUPPORTED_FORMATS.map Prod.fst ∧
      ".tif" ∉ SUPPORTED_FORMATS.map Prod.fst ∧
      ".tiff" ∉ SUPPORTED_FORMATS.map Prod.fst)) :=
  ⟨fun name => supported_formats_any_iff (strLower (pathSuffix name)),
   by decide⟩

/-- Witness for C9 at concrete file names. -/
theorem is_raw_file_extension_set_witness :
    is_raw_file "shot.NEF" = true ∧ is_raw_file "photo.jpg" = false := by
  constructor
  · exact (is_raw_file_extension_set.1 "shot.NEF").mpr (by decide)
  · have h := is_raw_file_extension_set.1 "photo.jpg"
    by_contra hb
    simp only [Bool.not_eq_false] at hb
    exact absurd (h.mp hb) (by decide)

/-- C9 counterexample: a `.jpg` file is rejected by the engine's scan even
though it appears in `CameraDetector.get_supported_file_extensions` — the
engine's accepted set does not include the standard image formats. -/
theorem scan_excludes_standard_images :
    is_raw_file "photo.jpg" = false ∧
    is_raw_file "photo.tiff" = false ∧
    ".jpg" ∈ get_supported_file_extensions ∧
    ".tiff" ∈ get_supported_file_extensions ∧
    scan_raw_files "dir" ["photo.jpg", "photo.tiff"] = [] := by decide

/-- C2: a job ends `skipped` exactly when the destination file already
exists before processing begins (and the output directory could be
prepared, which is automatic when the destination file exists); and in
that case the job's outcome is unchanged under ANY decode and encode
oracles — the decode and encode calls are never consulted. -/
theorem convert_single_file_skipped_iff (cfg : ConversionConfig)
    (env : FileEnv) (i o : PyPath) :
    ((convert_single_file cfg env i o).status = .skipped ↔
      (env.makedirs = .ok () ∧ env.outputExists = true)) ∧
    (env.makedirs = .ok () → env.outputExists = true →
      ∀ d e, convert_single_file cfg
          { env with decode := d, encode := e } i o
        = convert_single_file cfg env i o) := by
  constructor
  · cases hm : env.makedirs with
    | error e =>
      unfold convert_single_file
      rw [hm]
      simp [hm]
    | ok u =>
      cases u
      by_cases ho : env.outputExists
      · unfold convert_single_file
        rw [hm]
        simp [hm, ho]
      · unfold convert_single_file
        rw [hm]
        simp only [Bool.not_eq_true] at ho
        simp only [ho, Bool.false_eq_true, if_false, hm, and_true, true_and]
        split <;> simp
  · intro hm ho d e
    unfold convert_single_file
    dsimp only
    rw [hm, ho]
    rfl

/-- Witness for C2 with a concrete pre-existing destination. -/
theorem convert_single_file_skipped_iff_witness :
    ((convert_single_file {} { outputExists := true } [["x.nef"]].head! ["o", "x.jpg"]).status
        = .skipped ↔ (({ outputExists := true } : FileEnv).makedirs = .ok ()
          ∧ ({ outputExists := true } : FileEnv).outputExists = true)) ∧
    (convert_single_file {}
        { outputExists := true, decode := .error "decoder exploded",
          encode := .error "encoder exploded" } [["x.nef"]].head! ["o", "x.jpg"]
      = convert_single_file {} { outputExists := true } [["x.nef"]].head! ["o", "x.jpg"]) := by
  have h := convert_single_file_skipped_iff {} { outputExists := true }
    [["x.nef"]].head! ["o", "x.jpg"]
  exact ⟨h.1, h.2 rfl rfl (.error "decoder exploded") (.error "encoder exploded")⟩

theorem detected_pair_strict_free (cfg : ConversionConfig) (b : Bool)
    (env : FileEnv) :
    detected_pair { cfg with strict_icm := b } env = detected_pair cfg env := rfl

theorem determine_icm_file_strict_free (cfg : ConversionConfig) (b : Bool)
    (env : FileEnv) (dB dM : String) :
    determine_icm_file { cfg with strict_icm := b } env dB dM
      = determine_icm_file cfg env dB dM := rfl

/-- C6: colour correction enabled, no profile resolves, decode and encode
succeed: under strict mode the job ends `failed` with the descriptive
profile-not-found message; under lenient mode the identical job ends
`completed` with `icm_applied = false`. -/
theorem strict_lenient_no_profile (cfg : ConversionConfig) (env : FileEnv)
    (i o : PyPath)
    (hen : cfg.enable_icm_correction = true)
    (hmk : env.makedirs = .ok ())
    (hout : env.outputExists = false)
    (hdec : env.decode = .ok ())
    (henc : env.encode = .ok ())
    (hres : determine_icm_file cfg env (detected_pair cfg env).1
              (detected_pair cfg env).2 = none) :
    ((convert_single_file { cfg with strict_icm := true } env i o).status = .failed ∧
     (convert_single_file { cfg with strict_icm := true } env i o).error_message
       = "RAW转换失败: " ++ ("找不到ICM文件: " ++ (detected_pair cfg env).1 ++ " "
           ++ (detected_pair cfg env).2 ++ " " ++ cfg.icm_scene)) ∧
    ((convert_single_file { cfg with strict_icm := false } env i o).status = .completed ∧
     (convert_single_file { cfg with strict_icm := false } env i o).icm_applied
       = false) := by
  have hen' : ∀ b, ({ cfg with strict_icm := b } : ConversionConfig).enable_icm_correction
      = true := fun _ => hen
  have happly : ∀ b, apply_icm_correction { cfg with strict_icm := b } env
      (detected_pair cfg env).1 (detected_pair cfg env).2
      = if b then .error ("找不到ICM文件: " ++ (detected_pair cfg env).1 ++ " "
          ++ (detected_pair cfg env).2 ++ " " ++ cfg.icm_scene) else .ok () := by
    intro b
    unfold apply_icm_correction
    rw [determine_icm_file_strict_free, hres]
    simp [hen]
  have hconv : ∀ b, convert_with_rawpy { cfg with strict_icm := b } env
      (detected_pair cfg env).1 (detected_pair cfg env).2
      = if b then .error ("RAW转换失败: " ++ ("找不到ICM文件: "
          ++ (detected_pair cfg env).1 ++ " " ++ (detected_pair cfg env).2 ++ " "
          ++ cfg.icm_scene)) else .ok () := by
    intro b
    unfold convert_with_rawpy
    rw [hdec]
    dsimp only
    rw [if_pos (hen' b), happly b]
    cases b
    · simp [henc]
    · simp
  constructor
  · unfold convert_single_file
    dsimp only
    rw [hmk, hout, detected_pair_strict_free, hconv true]
    simp
  · unfold convert_single_file
    dsimp only
    rw [hmk, hout, detected_pair_strict_free]
    rw [if_pos (hen' false), determine_icm_file_strict_free, hres, hconv false]
    simp

/-- Witness for C6: a detected Nikon D850 with no matching profile. -/
theorem strict_lenient_no_profile_witness :
    ((convert_single_file { ({} : ConversionConfig) with strict_icm := true }
        { extractResult := some ("Nikon", "D850") } ["d850.nef"]
        ["out", "d850.jpg"]).status = .failed ∧
     (convert_single_file { ({} : ConversionConfig) with strict_icm := true }
        { extractResult := some ("Nikon", "D850") } ["d850.nef"]
        ["out", "d850.jpg"]).error_message
       = "RAW转换失败: 找不到ICM文件: Nikon D850 Generic") ∧
    ((convert_single_file { ({} : ConversionConfig) with strict_icm := false }
        { extractResult := some ("Nikon", "D850") } ["d850.nef"]
        ["out", "d850.jpg"]).status = .completed ∧
     (convert_single_file { ({} : ConversionConfig) with strict_icm := false }
        { extractResult := some ("Nikon", "D850") } ["d850.nef"]
        ["out", "d850.jpg"]).icm_applied = false) :=
  strict_lenient_no_profile {} { extractResult := some ("Nikon", "D850") }
    ["d850.nef"] ["out", "d850.jpg"] rfl rfl rfl rfl rfl (by decide)

/-- C1: for every non-empty input list and every completion order that is a
permutation of the submitted indices, `convert_batch` returns one result
per input, and the result in slot `i` carries the `i`-th input path —
submission order, not completion order. -/
theorem convert_batch_preserves_input_order (cfg : ConversionConfig)
    (envs : Nat → FileEnv) (files : List PyPath) (out : PyPath)
    (order : List Nat) (hne : files ≠ [])
    (hperm : order.Perm (List.range files.length)) :
    (convert_batch cfg envs files out order).length = files.length ∧
    ∀ i, i < files.length →
      ((convert_batch cfg envs files out order).getD i noneResult).input_path
        = files.getD i [] := by
  rw [convert_batch_eq_map cfg envs files out order hne hperm]
  constructor
  · simp
  · intro i hi
    rw [List.getD_eq_getElem?_getD, List.getElem?_map, List.getElem?_range hi]
    simp [convert_single_file_input_path]

/-- Witness for C1: a concrete two-file batch whose jobs complete in
reverse order still returns results in input order. -/
theorem convert_batch_preserves_input_order_witness :
    (convert_batch {} (fun _ => {}) [["a.nef"], ["b.nef"]] ["out"] [1, 0]).length = 2 ∧
    ((convert_batch {} (fun _ => {}) [["a.nef"], ["b.nef"]] ["out"] [1, 0]).getD 0
        noneResult).input_path = ["a.nef"] ∧
    ((convert_batch {} (fun _ => {}) [["a.nef"], ["b.nef"]] ["out"] [1, 0]).getD 1
        noneResult).input_path = ["b.nef"] := by
  have h := convert_batch_preserves_input_order {} (fun _ => {})
    [["a.nef"], ["b.nef"]] ["out"] [1, 0] (by decide) (by decide)
  exact ⟨h.1, h.2 0 (by decide), h.2 1 (by decide)⟩

/-- C7: every per-file error is captured in that file's result — the job
function is total with a terminal status, a directory-preparation error or
a decode/correction/encode error becomes a `failed` result carrying
exactly that message — and in a finished batch each result slot depends
only on its own file's environment, so a failing sibling never aborts the
batch or other jobs. -/
theorem per_file_errors_captured (cfg : ConversionConfig) (env : FileEnv)
    (i o : PyPath) :
    statusTerminal (convert_single_file cfg env i o).status ∧
    (∀ e, env.makedirs = .error e →
      (convert_single_file cfg env i o).status = .failed ∧
      (convert_single_file cfg env i o).error_message = e) ∧
    (∀ e, env.makedirs = .ok () → env.outputExists = false →
      convert_with_rawpy cfg env (detected_pair cfg env).1
          (detected_pair cfg env).2 = .error e →
      (convert_single_file cfg env i o).status = .failed ∧
      (convert_single_file cfg env i o).error_message = e) ∧
    (∀ (envs : Nat → FileEnv) (files : List PyPath) (out : PyPath)
        (order : List Nat),
      files ≠ [] → order.Perm (List.range files.length) →
      (convert_batch cfg envs files out order).length = files.length ∧
      ∀ j, j < files.length →
        (convert_batch cfg envs files out order).getD j noneResult
          = convert_single_file cfg (envs j) (files.getD j [])
              (prepare_output_path (files.getD j []) out)) := by
  refine ⟨convert_single_file_terminal cfg env i o, ?_, ?_, ?_⟩
  · intro e he
    unfold convert_single_file
    dsimp only
    rw [he]
    exact ⟨rfl, rfl⟩
  · intro e hmk hout hc
    unfold convert_single_file
    dsimp only
    rw [hmk, hout, hc]
    exact ⟨rfl, rfl⟩
  · intro envs files out order hne hperm
    rw [convert_batch_eq_map cfg envs files out order hne hperm]
    constructor
    · simp
    · intro j hj
      rw [List.getD_eq_getElem?_getD, List.getElem?_map, List.getElem?_range hj]
      rfl

/-- Witness for C7: one job whose decode raises is failed with the wrapped
message, while its sibling in the same batch is unaffected. -/
theorem per_file_errors_captured_witness :
    ((convert_single_file {} { decode := .error "rawpy exploded" }
        ["bad.nef"] ["out", "bad.jpg"]).status = .failed ∧
     (convert_single_file {} { decode := .error "rawpy exploded" }
        ["bad.nef"] ["out", "bad.jpg"]).error_message
       = "RAW转换失败: rawpy exploded") ∧
    ((convert_batch {} (fun j => if j = 0 then { decode := .error "rawpy exploded" }
        else {}) [["bad.nef"], ["good.nef"]] ["out"] [0, 1]).length = 2 ∧
     (convert_batch {} (fun j => if j = 0 then { decode := .error "rawpy exploded" }
        else {}) [["bad.nef"], ["good.nef"]] ["out"] [0, 1]).getD 1 noneResult
       = convert_single_file {} {} ["good.nef"]
           (prepare_output_path ["good.nef"] ["out"])) := by
  have h1 := (per_file_errors_captured {} { decode := .error "rawpy exploded" }
    ["bad.nef"] ["out", "bad.jpg"]).2.2.1 "RAW转换失败: rawpy exploded"
    rfl rfl rfl
  have h2 := (per_file_errors_captured {} { decode := .error "rawpy exploded" }
    ["bad.nef"] ["out", "bad.jpg"]).2.2.2
    (fun j => if j = 0 then { decode := .error "rawpy exploded" } else {})
    [["bad.nef"], ["good.nef"]] ["out"] [0, 1] (by decide) (by decide)
  exact ⟨h1, h2.1, h2.2 1 (by decide)⟩

theorem add_result_partition (m : ConversionMetrics) (r : ConversionResult)
    (h : statusTerminal r.status)
    (hm : m.completed_files + m.failed_files + m.skipped_files = m.total_files) :
    (m.add_result r).completed_files + (m.add_result r).failed_files
      + (m.add_result r).skipped_files = (m.add_result r).total_files := by
  unfold ConversionMetrics.add_result
  rcases h with h | h | h <;> rw [h] <;> dsimp only <;> omega

theorem calculate_metrics_counts (m : ConversionMetrics) :
    (m.calculate_metrics).completed_files = m.completed_files ∧
    (m.calculate_metrics).failed_files = m.failed_files ∧
    (m.calculate_metrics).skipped_files = m.skipped_files ∧
    (m.calculate_metrics).total_files = m.total_files := by
  unfold ConversionMetrics.calculate_metrics
  split <;> simp

theorem foldl_add_result_partition (rs : List ConversionResult) :
    (∀ r ∈ rs, statusTerminal r.status) →
    ∀ m : ConversionMetrics,
      m.completed_files + m.failed_files + m.skipped_files = m.total_files →
      (rs.foldl (fun m r => m.add_result r) m).completed_files
        + (rs.foldl (fun m r => m.add_result r) m).failed_files
        + (rs.foldl (fun m r => m.add_result r) m).skipped_files
        = (rs.foldl (fun m r => m.add_result r) m).total_files := by
  induction rs with
  | nil => intro _ m hm; exact hm
  | cons r t ih =>
    intro hterm m hm
    simp only [List.foldl_cons]
    exact ih (fun x hx => hterm x (List.mem_cons_of_mem r hx)) _
      (add_result_partition m r (hterm r (List.mem_cons_self r t)) hm)

/-- C8: after a finished `convert_batch` run, the folded metrics satisfy
`completed_files + failed_files + skipped_files = total_files`. -/
theorem convert_batch_metrics_partition (cfg : ConversionConfig)
    (envs : Nat → FileEnv) (files : List PyPath) (out : PyPath)
    (order : List Nat) (hne : files ≠ [])
    (hperm : order.Perm (List.range files.length)) :
    (convert_batch_metrics cfg envs files out order).completed_files
      + (convert_batch_metrics cfg envs files out order).failed_files
      + (convert_batch_metrics cfg envs files out order).skipped_files
      = (convert_batch_metrics cfg envs files out order).total_files := by
  unfold convert_batch_metrics
  obtain ⟨h1, h2, h3, h4⟩ := calculate_metrics_counts
    ((convert_batch cfg envs files out order).foldl
      (fun m r => m.add_result r) {})
  rw [h1, h2, h3, h4]
  refine foldl_add_result_partition _ ?_ {} rfl
  intro r hr
  rw [convert_batch_eq_map cfg envs files out order hne hperm] at hr
  obtain ⟨j, hj, rfl⟩ := List.mem_map.mp hr
  exact convert_single_file_terminal cfg (envs j) (files.getD j [])
    (prepare_output_path (files.getD j []) out)

/-- Witness for C8: a concrete two-file run (one decode failure, one
success). -/
theorem convert_batch_metrics_partition_witness :
    (convert_batch_metrics {} (fun j => if j = 0 then { decode := .error "boom" }
        else {}) [["bad.nef"], ["good.nef"]] ["out"] [1, 0]).completed_files
      + (convert_batch_metrics {} (fun j => if j = 0 then { decode := .error "boom" }
        else {}) [["bad.nef"], ["good.nef"]] ["out"] [1, 0]).failed_files
      + (convert_batch_metrics {} (fun j => if j = 0 then { decode := .error "boom" }
        else {}) [["bad.nef"], ["good.nef"]] ["out"] [1, 0]).skipped_files
      = (convert_batch_metrics {} (fun j => if j = 0 then { decode := .error "boom" }
        else {}) [["bad.nef"], ["good.nef"]] ["out"] [1, 0]).total_files :=
  convert_batch_metrics_partition {} (fun j => if j = 0 then
    { decode := .error "boom" } else {}) [["bad.nef"], ["good.nef"]] ["out"]
    [1, 0] (by decide) (by decide)
